import Mathlib

/-!
Shallow embedding of `src/firmware_v1_alpha.py` (binobo firmware):
multiplexer select-line handling, ADC aggregation, calibration,
the bounded sample buffer, and the publish/reconnect loop.
Fallible Python code (raised exceptions) is modelled with `Option` /
`Except`; Python lists mutated in place are modelled either at value
level (threading the contents) or with an explicit heap of list objects
where aliasing matters.
-/

namespace Firmware

/-- Mechanical degree of freedom: source `mdof = 340`. -/
def mdof : ℚ := 340

/-- Conversion factor: source `f_rc = mdof / 4095`. -/
def f_rc : ℚ := mdof / 4095

/-- Select-line states written by the loop in `Multiplexer.map_nibble_to_pins`:
`for i in range(self.len_pins): self.pins[i].value(nibble & 0b0001); nibble >>= 1`.
Element `i` of the result is the bit driven onto select line `i`. -/
def writePins : Nat → Nat → List Nat
  | 0, _ => []
  | n + 1, nib => (nib % 2) :: writePins n (nib / 2)

/-- Model of `Multiplexer.map_nibble_to_pins`: raises `ValueError` (modelled as
`none`) when `nibble > 15`; otherwise drives the configured select lines with
the low bits of `nibble` and returns the resulting select-line states. -/
def map_nibble_to_pins (len_pins nibble : Nat) : Option (List Nat) :=
  if nibble > 15 then none
  else some (writePins len_pins nibble)

/-- Binary value physically encoded by the select-line states: line 0 carries
bit 0, the last configured line carries the highest bit. -/
def fromPins : List Nat → Nat
  | [] => 0
  | b :: bs => b + 2 * fromPins bs

/-- Static configuration of one multiplexer bank: number of non-`None` select
pins handed to `Multiplexer.__init__`, and `a_channels`. -/
structure MultiplexerConfig where
  len_pins : Nat
  a_channels : Nat
  deriving DecidableEq

/-- First bank, source `multi1`: four select pins, 16 analogue channels. -/
def multi1 : MultiplexerConfig := ⟨4, 16⟩

/-- Second bank, source `multi2`: three select pins (`pin4 = None` is skipped by
the constructor), 6 analogue channels. -/
def multi2 : MultiplexerConfig := ⟨3, 6⟩

theorem writePins_length (p n : Nat) : (writePins p n).length = p := by
  induction p generalizing n with
  | zero => rfl
  | succ p ih => simp [writePins, ih]

theorem fromPins_writePins (p n : Nat) : fromPins (writePins p n) = n % 2 ^ p := by
  induction p generalizing n with
  | zero => simp [writePins, fromPins, Nat.mod_one]
  | succ p ih =>
      have h2 : (2 : Nat) ^ (p + 1) = 2 * 2 ^ p := by
        rw [Nat.pow_succ, Nat.mul_comm]
      rw [writePins, fromPins, ih, h2, Nat.mod_mul]

/-- C5 counterexample: the second bank is configured with 3 select lines, so
the claim demands that every index above `2 ^ 3 - 1 = 7` be rejected; but the
source only checks `nibble > 15`, so index 8 is accepted (its low three bits,
all zero, are driven onto the lines). -/
theorem map_nibble_bound_counterexample :
    8 > 2 ^ multi2.len_pins - 1 ∧
      map_nibble_to_pins multi2.len_pins 8 ≠ none ∧
      map_nibble_to_pins multi2.len_pins 8 = some [0, 0, 0] := by
  refine ⟨by decide, ?_, ?_⟩ <;> decide

/-- C5 amended: `map_nibble_to_pins` fails (raises `ValueError`) exactly when
the index exceeds 15, regardless of how many select lines the bank is
configured with; in particular a bank with 3 select lines accepts indices 8-15,
driving only their low three bits onto the lines. -/
theorem map_nibble_bound_amended (len_pins nibble : Nat) :
    (map_nibble_to_pins len_pins nibble = none ↔ 15 < nibble) ∧
      map_nibble_to_pins 3 8 = some (writePins 3 8) := by
  constructor
  · unfold map_nibble_to_pins
    by_cases h : nibble > 15 <;> simp [h]
  · decide

theorem select_encodes_index_core (m : MultiplexerConfig) (hm : m = multi1 ∨ m = multi2)
    (i : Nat) (hi : i < m.a_channels) :
    map_nibble_to_pins m.len_pins i = some (writePins m.len_pins i) ∧
      fromPins (writePins m.len_pins i) = i := by
  have hch : i < 2 ^ m.len_pins ∧ i ≤ 15 := by
    rcases hm with h | h <;> subst h
    · exact ⟨by simpa [multi1] using hi, by
        have : i < 16 := by simpa [multi1] using hi
        omega⟩
    · refine ⟨?_, ?_⟩
      · have : i < 6 := by simpa [multi2] using hi
        simp only [multi2]
        omega
      · have : i < 6 := by simpa [multi2] using hi
        omega
  constructor
  · unfold map_nibble_to_pins
    have : ¬ i > 15 := by omega
    simp [this]
  · rw [fromPins_writePins]
    exact Nat.mod_eq_of_lt hch.1

/-- C7: for each of the program's two banks (`multi1` with 4 select lines and
16 channels, `multi2` with 3 select lines and 6 channels) and every channel
index `i` below the bank's channel count, `select(i)` succeeds and the binary
value reconstructed from the select-line states (bit 0 on the first line,
highest bit on the last configured line) equals `i`. -/
theorem select_encodes_index (m : MultiplexerConfig) (hm : m = multi1 ∨ m = multi2)
    (i : Nat) (hi : i < m.a_channels) :
    map_nibble_to_pins m.len_pins i = some (writePins m.len_pins i) ∧
      fromPins (writePins m.len_pins i) = i :=
  select_encodes_index_core m hm i hi

theorem select_encodes_index_witness :
    map_nibble_to_pins multi2.len_pins 5 = some (writePins multi2.len_pins 5) ∧
      fromPins (writePins multi2.len_pins 5) = 5 :=
  select_encodes_index multi2 (Or.inr rfl) 5 (by decide)

/-- Model of `Multiplexer.read_all`: scans channels `0 .. a_channels - 1` in
ascending order, selecting each via `map_nibble_to_pins` and then reading the
bank's shared analogue input. The hardware is modelled by `env`, giving the
analogue reading as a function of the channel physically selected (i.e. of the
binary value on the select lines at read time); a `ValueError` from
`map_nibble_to_pins` propagates (`none`). -/
def read_all (m : MultiplexerConfig) (env : Nat → Nat) : Option (List Nat) :=
  (List.range m.a_channels).mapM fun i =>
    (map_nibble_to_pins m.len_pins i).map fun pins => env (fromPins pins)

/-- Model of `ADCIter.retrieve_data_raw` for the program's aggregator
`adc_iter = ADCIter(multi1, multi2)`: reads all channels of `multi1`, then all
channels of `multi2`, concatenating the results bank-major. `env1` and `env2`
model the two banks' analogue inputs. -/
def retrieve_data_raw (env1 env2 : Nat → Nat) : Option (List Nat) :=
  (read_all multi1 env1).bind fun r1 =>
    (read_all multi2 env2).map fun r2 => r1 ++ r2

theorem mapM_option_eq_map {α β : Type} (g : α → Option β) (f : α → β) :
    ∀ l : List α, (∀ a ∈ l, g a = some (f a)) → l.mapM g = some (l.map f) := by
  intro l
  induction l with
  | nil => intro _; rfl
  | cons a l ih =>
      intro h
      have ha : g a = some (f a) := h a (by simp)
      have hl : l.mapM g = some (l.map f) := ih fun x hx => h x (by simp [hx])
      simp only [List.mapM_cons, ha, hl]
      rfl

theorem read_all_spec (m : MultiplexerConfig) (env : Nat → Nat)
    (hm : m = multi1 ∨ m = multi2) :
    read_all m env = some ((List.range m.a_channels).map env) := by
  unfold read_all
  have key : ∀ i ∈ List.range m.a_channels,
      ((map_nibble_to_pins m.len_pins i).map fun pins => env (fromPins pins)) =
        some (env i) := by
    intro i hi
    have hi' : i < m.a_channels := List.mem_range.mp hi
    obtain ⟨h1, h2⟩ := select_encodes_index_core m hm i hi'
    rw [h1, Option.map_some', h2]
  exact mapM_option_eq_map _ env _ key

/-- C8: for the aggregator built over the two banks with channel counts 16 and
6, `retrieve_data_raw` returns a 22-element vector ordered bank-major then
channel-minor: global index `i < 16` holds bank 1's channel `i`, and global
index `16 + j` (for `j < 6`) holds bank 2's channel `j`; in particular channel
0 of the second bank sits at global index 16. -/
theorem capture_raw_bank_major (env1 env2 : Nat → Nat) :
    ∃ res, retrieve_data_raw env1 env2 = some res ∧
      res.length = 22 ∧
      (∀ i, i < 16 → res[i]? = some (env1 i)) ∧
      (∀ j, j < 6 → res[16 + j]? = some (env2 j)) ∧
      res[16]? = some (env2 0) := by
  have h1 : read_all multi1 env1 = some ((List.range 16).map env1) := by
    simpa [multi1] using read_all_spec multi1 env1 (Or.inl rfl)
  have h2 : read_all multi2 env2 = some ((List.range 6).map env2) := by
    simpa [multi2] using read_all_spec multi2 env2 (Or.inr rfl)
  refine ⟨(List.range 16).map env1 ++ (List.range 6).map env2, ?_, ?_, ?_, ?_, ?_⟩
  · simp [retrieve_data_raw, h1, h2]
  · simp
  · intro i hi
    rw [List.getElem?_append_left (by simpa using hi)]
    simp [List.getElem?_range hi]
  · intro j hj
    rw [List.getElem?_append_right (by simp)]
    simp [List.getElem?_range hj]
  · rw [List.getElem?_append_right (by simp)]
    simp [List.getElem?_range (by omega : (0 : Nat) < 6)]

theorem capture_raw_bank_major_witness :
    ∃ res, retrieve_data_raw (fun i => i) (fun j => 100 + j) = some res ∧
      res.length = 22 ∧
      (∀ i, i < 16 → res[i]? = some ((fun i => i) i)) ∧
      (∀ j, j < 6 → res[16 + j]? = some ((fun j => 100 + j) j)) ∧
      res[16]? = some ((fun j => 100 + j) 0) :=
  capture_raw_bank_major (fun i => i) (fun j => 100 + j)

/-- Model of `calibrate`'s effect on `zero_pos`: the captured zero-position raw
vector (a physical measurement, passed in here) is stored rescaled entrywise:
`zero_pos[i] = zero_pos[i] * f_rc`. -/
def calibrate (rawZero : List ℚ) : List ℚ :=
  rawZero.map fun v => v * f_rc

/-- One iteration of the loop in `convert_retrieved_data`:
`data_to_conv[i] = data_to_conv[i] * f_rc - zero_pos[i]`. An out-of-range index
on either list raises `IndexError` (modelled as `none`). -/
def convertStep (zero_pos : List ℚ) (acc : Option (List ℚ)) (i : Nat) : Option (List ℚ) :=
  acc.bind fun buf =>
    match buf[i]?, zero_pos[i]? with
    | some b, some z => some (buf.set i (b * f_rc - z))
    | _, _ => none

/-- Model of `convert_retrieved_data`: runs
`for i in range(22): data_to_conv[i] = data_to_conv[i] * f_rc - zero_pos[i]`
and then `return data_to_conv`. The returned list is the final contents of the
argument, which the loop has updated in place. -/
def convert_retrieved_data (zero_pos data_to_conv : List ℚ) : Option (List ℚ) :=
  (List.range 22).foldl (convertStep zero_pos) (some data_to_conv)

theorem convert_foldl_none (z : List ℚ) (l : List Nat) :
    l.foldl (convertStep z) none = none := by
  induction l with
  | nil => rfl
  | cons a l ih => exact ih

theorem convert_go (z : List ℚ) :
    ∀ (n : Nat) (buf : List ℚ), n ≤ buf.length → n ≤ z.length →
    ∃ out, (List.range n).foldl (convertStep z) (some buf) = some out ∧
      out.length = buf.length ∧
      (∀ i, n ≤ i → out[i]? = buf[i]?) ∧
      (∀ i b zi, i < n → buf[i]? = some b → z[i]? = some zi →
        out[i]? = some (b * f_rc - zi)) := by
  intro n
  induction n with
  | zero =>
      intro buf _ _
      exact ⟨buf, rfl, rfl, fun i _ => rfl, fun i b zi hi => absurd hi (Nat.not_lt_zero i)⟩
  | succ n ih =>
      intro buf hb hz
      obtain ⟨out, hfold, hlen, hhigh, hlow⟩ :=
        ih buf (Nat.le_of_succ_le hb) (Nat.le_of_succ_le hz)
      have hnb : n < buf.length := hb
      have hnz : n < z.length := hz
      have hbn : buf[n]? = some buf[n] := List.getElem?_eq_getElem hnb
      have hzn : z[n]? = some z[n] := List.getElem?_eq_getElem hnz
      have houtn : out[n]? = some buf[n] := by rw [hhigh n (Nat.le_refl n), hbn]
      refine ⟨out.set n (buf[n] * f_rc - z[n]), ?_, ?_, ?_, ?_⟩
      · rw [List.range_succ, List.foldl_append, hfold]
        simp only [List.foldl_cons, List.foldl_nil, convertStep, Option.some_bind]
        rw [houtn, hzn]
      · rw [List.length_set, hlen]
      · intro i hi
        rw [List.getElem?_set_ne (by omega : n ≠ i)]
        exact hhigh i (by omega)
      · intro i b zi hi hbi hzi
        rcases Nat.lt_succ_iff_lt_or_eq.mp hi with hlt | heq
        · rw [List.getElem?_set_ne (by omega : n ≠ i)]
          exact hlow i b zi hlt hbi hzi
        · subst heq
          have hb' : b = buf[i] := by
            rw [hbi] at hbn
            exact Option.some_inj.mp hbn
          have hz' : zi = z[i] := by
            rw [hzi] at hzn
            exact Option.some_inj.mp hzn
          rw [hb', hz']
          exact List.getElem?_set_eq_of_lt _ (by omega)

/-- C2: after calibrating with a zero-capture raw vector `z` of length 22, the
transform of any raw vector `r` of length 22 succeeds and satisfies
`out[i] = r[i] * f_rc - z[i] * f_rc` at every index; in particular, with
zero-capture raw `[100] * 22`, a subsequent raw sample `[100] * 22` transforms
to `[0] * 22`. -/
theorem transform_after_calibrate :
    (∀ r z : List ℚ, r.length = 22 → z.length = 22 →
      ∃ out, convert_retrieved_data (calibrate z) r = some out ∧
        out.length = 22 ∧
        ∀ (i : Nat) (ri zi : ℚ), r[i]? = some ri → z[i]? = some zi →
          out[i]? = some (ri * f_rc - zi * f_rc)) ∧
    convert_retrieved_data (calibrate (List.replicate 22 100))
        (List.replicate 22 100) = some (List.replicate 22 0) := by
  constructor
  · intro r z hr hz
    have hzc : (calibrate z).length = 22 := by simp [calibrate, hz]
    obtain ⟨out, hfold, hlen, _, hlow⟩ :=
      convert_go (calibrate z) 22 r (by omega) (by omega)
    refine ⟨out, hfold, by omega, ?_⟩
    intro i ri zi hri hzi
    have hi : i < 22 := by
      by_contra hge
      have : r[i]? = none := List.getElem?_eq_none (by omega)
      rw [this] at hri
      exact Option.noConfusion hri
    have hzci : (calibrate z)[i]? = some (zi * f_rc) := by
      simp [calibrate, hzi]
    exact hlow i ri (zi * f_rc) hi hri hzci
  · obtain ⟨out, hfold, hlen, hhigh, hlow⟩ :=
      convert_go (calibrate (List.replicate 22 100)) 22 (List.replicate 22 100)
        (by simp) (by simp [calibrate])
    have hout : out = List.replicate 22 0 := by
      apply List.ext_getElem?
      intro i
      by_cases hi : i < 22
      · have hb : (List.replicate 22 (100 : ℚ))[i]? = some 100 :=
          List.getElem?_replicate_of_lt hi
        have hz : (calibrate (List.replicate 22 100))[i]? = some (100 * f_rc) := by
          rw [show calibrate (List.replicate 22 (100 : ℚ)) =
              List.replicate 22 (100 * f_rc) from by simp [calibrate]]
          exact List.getElem?_replicate_of_lt hi
        rw [hlow i 100 (100 * f_rc) hi hb hz, List.getElem?_replicate, if_pos hi,
          sub_self]
      · rw [hhigh i (by omega), List.getElem?_replicate, List.getElem?_replicate,
          if_neg hi, if_neg hi]
    show (List.range 22).foldl (convertStep (calibrate (List.replicate 22 100)))
        (some (List.replicate 22 100)) = some (List.replicate 22 0)
    rw [hfold, hout]

theorem transform_after_calibrate_witness :
    ∃ out, convert_retrieved_data (calibrate (List.replicate 22 (200 : ℚ)))
        (List.replicate 22 (300 : ℚ)) = some out ∧
      out.length = 22 ∧
      ∀ (i : Nat) (ri zi : ℚ), (List.replicate 22 (300 : ℚ))[i]? = some ri →
        (List.replicate 22 (200 : ℚ))[i]? = some zi →
        out[i]? = some (ri * f_rc - zi * f_rc) :=
  transform_after_calibrate.1 (List.replicate 22 300) (List.replicate 22 200)
    (by simp) (by simp)

/-- C4: before `calibrate` has populated `zero_pos` (the module initialises it
to the empty list), `convert_retrieved_data` fails for every raw sample vector
(the first loop iteration hits `zero_pos[0]` on the empty vector): the
transform rejects all requests until the zero-offset vector is populated. -/
theorem transform_rejected_until_calibrated (raw : List ℚ) :
    convert_retrieved_data [] raw = none := by
  unfold convert_retrieved_data
  have h22 : (22 : Nat) = 21 + 1 := rfl
  rw [h22, List.range_succ_eq_map, List.foldl_cons]
  have hstep : convertStep [] (some raw) 0 = none := by
    unfold convertStep
    rw [Option.some_bind]
    cases raw[0]? <;> rfl
  rw [hstep]
  exact convert_foldl_none [] _

/-- Heap of Python list-of-rationals objects: `store` maps a reference to the
object's current contents, `next` is the next fresh reference. -/
structure PyHeap where
  store : Nat → List ℚ
  next : Nat

/-- Heap-level model of `convert_retrieved_data`: the loop assigns
`data_to_conv[i] = ...` into the caller's list object, and `return data_to_conv`
hands back a reference to that same object. The result is the updated heap
together with the returned reference. -/
def convert_retrieved_data_heap (zero_pos : List ℚ) (h : PyHeap) (ref : Nat) :
    Option (PyHeap × Nat) :=
  (convert_retrieved_data zero_pos (h.store ref)).map fun out =>
    (⟨fun l => if l = ref then out else h.store l, h.next⟩, ref)

/-- C9 counterexample: with `zero_pos` populated with 22 entries of 1 and a raw
sample object holding 22 entries of 0, `convert_retrieved_data` does not leave
the raw sample unchanged, and its result is not a distinct value: the call
returns the very reference it was given (reference 0), and that object's entry
at index 0 afterwards is `-1` where before the call it was `0`. -/
theorem transform_mutates_raw_counterexample :
    (convert_retrieved_data_heap (List.replicate 22 1)
        ⟨fun _ => List.replicate 22 0, 1⟩ 0).map
        (fun p => ((p.1.store 0)[0]?, p.2)) = some (some (-1 : ℚ), 0) ∧
      (List.replicate 22 (0 : ℚ))[0]? = some 0 ∧
      some (-1 : ℚ) ≠ some (0 : ℚ) := by
  obtain ⟨out, hfold, hlen, hhigh, hlow⟩ :=
    convert_go (List.replicate 22 1) 22 (List.replicate 22 0) (by simp) (by simp)
  have hc : convert_retrieved_data (List.replicate 22 1) (List.replicate 22 0) =
      some out := hfold
  have h0 : out[0]? = some (0 * f_rc - 1) :=
    hlow 0 0 1 (by omega) (by simp) (by simp)
  refine ⟨?_, by simp, by norm_num⟩
  show (convert_retrieved_data_heap (List.replicate 22 1)
      ⟨fun _ => List.replicate 22 0, 1⟩ 0).map
      (fun p => ((p.1.store 0)[0]?, p.2)) = some (some (-1 : ℚ), 0)
  unfold convert_retrieved_data_heap
  rw [show (⟨fun _ => List.replicate 22 0, 1⟩ : PyHeap).store 0 =
      List.replicate 22 0 from rfl, hc]
  simp only [Option.map_some']
  simp only [if_true]
  rw [h0]
  norm_num

/-- C9 amended: `convert_retrieved_data` is an in-place update, not a pure
producer: it hands back the very object it was given (the returned reference
equals the argument reference), whose contents it has overwritten at every
index `i < 22` with `raw[i] * f_rc - zero_pos[i]` (so the original raw
contents are not preserved in general — see the counterexample), while indices
22 and above keep their old values. -/
theorem transform_mutates_raw_amended (zero_pos : List ℚ) (h : PyHeap) (ref : Nat)
    (hz : 22 ≤ zero_pos.length) (hb : 22 ≤ (h.store ref).length) :
    ∃ h' out, convert_retrieved_data_heap zero_pos h ref = some (h', ref) ∧
      h'.store ref = out ∧
      out.length = (h.store ref).length ∧
      (∀ (i : Nat) (b zi : ℚ), i < 22 → (h.store ref)[i]? = some b →
        zero_pos[i]? = some zi → out[i]? = some (b * f_rc - zi)) ∧
      (∀ i : Nat, 22 ≤ i → out[i]? = (h.store ref)[i]?) := by
  obtain ⟨out, hfold, hlen, hhigh, hlow⟩ :=
    convert_go zero_pos 22 (h.store ref) hb hz
  have hc : convert_retrieved_data zero_pos (h.store ref) = some out := hfold
  refine ⟨⟨fun l => if l = ref then out else h.store l, h.next⟩, out, ?_, ?_,
    hlen, fun i b zi hi hbi hzi => hlow i b zi hi hbi hzi, hhigh⟩
  · unfold convert_retrieved_data_heap
    rw [hc, Option.map_some']
  · simp

theorem transform_mutates_raw_amended_witness :
    ∃ h' out,
      convert_retrieved_data_heap (List.replicate 22 1)
          ⟨fun _ => List.replicate 22 2, 3⟩ 0 = some (h', 0) ∧
        h'.store 0 = out ∧
        out.length = ((⟨fun _ => List.replicate 22 2, 3⟩ : PyHeap).store 0).length ∧
        (∀ (i : Nat) (b zi : ℚ), i < 22 →
          ((⟨fun _ => List.replicate 22 2, 3⟩ : PyHeap).store 0)[i]? = some b →
          (List.replicate 22 (1 : ℚ))[i]? = some zi →
          out[i]? = some (b * f_rc - zi)) ∧
        (∀ i : Nat, 22 ≤ i →
          out[i]? = ((⟨fun _ => List.replicate 22 2, 3⟩ : PyHeap).store 0)[i]?) :=
  transform_mutates_raw_amended (List.replicate 22 1)
    ⟨fun _ => List.replicate 22 2, 3⟩ 0 (by simp) (by simp)

/-- Shared state read by `publish_data`'s wait-then-take: the module-level
`data` buffer of calibrated samples and the `iteration_done` flag. -/
structure BufState where
  data : List (List ℚ)
  iteration_done : Bool

/-- One iteration of `publish_data`'s wait-then-take, i.e. the drain with
`minCount = 3`: while `not iteration_done or len(data) < 3` the loop only
sleeps (no effect on the buffer); once the condition fails, `temp = data`
takes the whole buffer and `data = []` rebinds the global to an empty list.
Returns the drained batch (if ready) and the state afterwards. -/
def drainIfReady (st : BufState) : Option (List (List ℚ)) × BufState :=
  if st.iteration_done = true ∧ 3 ≤ st.data.length then
    (some st.data, ⟨[], st.iteration_done⟩)
  else
    (none, st)

/-- C1: the drain never returns data while the buffer holds fewer than 3
samples; when it does return data it returns the entire buffer (no partial
drain) and the buffer is empty immediately afterwards; and when not ready it
has no side effect on the buffer state at all. -/
theorem drainIfReady_spec (st : BufState) :
    (st.data.length < 3 → (drainIfReady st).1 = none) ∧
      (∀ b, (drainIfReady st).1 = some b →
        b = st.data ∧ (drainIfReady st).2.data = []) ∧
      ((drainIfReady st).1 = none → (drainIfReady st).2 = st) := by
  unfold drainIfReady
  by_cases hc : st.iteration_done = true ∧ 3 ≤ st.data.length
  · rw [if_pos hc]
    refine ⟨fun hlt => absurd hc.2 (by omega), fun b hb => ⟨?_, rfl⟩, fun h => ?_⟩
    · exact (Option.some_inj.mp hb).symm
    · exact Option.noConfusion h
  · rw [if_neg hc]
    exact ⟨fun _ => rfl, fun b hb => Option.noConfusion hb, fun _ => rfl⟩

theorem drainIfReady_spec_witness :
    (drainIfReady ⟨[], true⟩).1 = none ∧
      ([[(1 : ℚ)], [2], [3]] = (⟨[[(1 : ℚ)], [2], [3]], true⟩ : BufState).data ∧
        (drainIfReady ⟨[[(1 : ℚ)], [2], [3]], true⟩).2.data = []) :=
  ⟨(drainIfReady_spec ⟨[], true⟩).1 (by simp),
    (drainIfReady_spec ⟨[[(1 : ℚ)], [2], [3]], true⟩).2.1
      [[(1 : ℚ)], [2], [3]] rfl⟩

/-- Model of `retrieve_data`'s effect on the `data` buffer: the freshly
converted sample is appended, then `if len(data) > 10: data = []` resets the
whole buffer. -/
def retrieve_data (buf : List (List ℚ)) (sample : List ℚ) : List (List ℚ) :=
  if (buf ++ [sample]).length > 10 then [] else buf ++ [sample]

theorem retrieve_data_foldl_small :
    ∀ (xs : List (List ℚ)) (buf : List (List ℚ)),
      buf.length + xs.length ≤ 10 → xs.foldl retrieve_data buf = buf ++ xs := by
  intro xs
  induction xs with
  | nil => intro buf _; simp
  | cons x xs ih =>
      intro buf h
      have hx : xs.length + 1 ≤ 10 - buf.length := by
        simp only [List.length_cons] at h
        omega
      rw [List.foldl_cons]
      rw [show retrieve_data buf x = buf ++ [x] from by
        unfold retrieve_data
        rw [if_neg (by simp; omega)]]
      rw [ih (buf ++ [x]) (by simp; omega)]
      simp

/-- C3: pushing 11 samples into the initially empty buffer leaves it with
length 0 (the push that crosses the bound of 10 resets the buffer to empty
rather than evicting only the oldest entry), and after any single push the
buffer length is at most 10. -/
theorem buffer_overflow_reset :
    (∀ xs : List (List ℚ), xs.length = 11 → xs.foldl retrieve_data [] = []) ∧
      (∀ (buf : List (List ℚ)) (s : List ℚ), (retrieve_data buf s).length ≤ 10) := by
  constructor
  · intro xs hlen
    rcases List.eq_nil_or_concat xs with rfl | ⟨ys, z, rfl⟩
    · exact absurd hlen (by decide)
    · rw [List.concat_eq_append] at hlen ⊢
      have hys : ys.length = 10 := by
        simp only [List.length_append, List.length_cons, List.length_nil] at hlen
        omega
      rw [List.foldl_append, List.foldl_cons, List.foldl_nil]
      rw [retrieve_data_foldl_small ys [] (by simp [hys])]
      unfold retrieve_data
      rw [if_pos (by simp [hys])]
  · intro buf s
    unfold retrieve_data
    by_cases hb : (buf ++ [s]).length > 10
    · rw [if_pos hb]; simp
    · rw [if_neg hb]; omega

theorem buffer_overflow_reset_witness :
    (List.replicate 11 [(1 : ℚ)]).foldl retrieve_data [] = [] :=
  buffer_overflow_reset.1 (List.replicate 11 [1]) (by simp)

/-- Heap of Python buffer objects (lists of calibrated samples): `store` maps a
reference to an object's current contents, `dataRef` is the object the global
`data` is currently bound to, `next` is the next fresh reference. -/
structure BufHeap where
  store : Nat → List (List ℚ)
  dataRef : Nat
  next : Nat

/-- Heap-level take step of `publish_data`: `temp = data` keeps a reference to
the current buffer object, and `data = []` rebinds the global to a fresh empty
list object. Returns the batch reference `temp` and the state afterwards. -/
def drainTake (st : BufHeap) : Nat × BufHeap :=
  (st.dataRef,
    ⟨fun l => if l = st.next then [] else st.store l, st.next, st.next + 1⟩)

/-- Heap-level model of `retrieve_data`'s buffer effect: `data.append(x)`
mutates the current buffer object in place; if the length then exceeds 10,
`data = []` rebinds the global to a fresh empty list object (the overflowed
contents remain in the old object, which nothing references any more). -/
def retrieve_data_heap (st : BufHeap) (x : List ℚ) : BufHeap :=
  if (st.store st.dataRef ++ [x]).length > 10 then
    ⟨fun l => if l = st.next then []
      else if l = st.dataRef then st.store st.dataRef ++ [x] else st.store l,
      st.next, st.next + 1⟩
  else
    ⟨fun l => if l = st.dataRef then st.store st.dataRef ++ [x] else st.store l,
      st.dataRef, st.next⟩

theorem retrieve_data_heap_frame :
    ∀ (pushes : List (List ℚ)) (st : BufHeap) (t : Nat),
      t < st.dataRef → st.dataRef < st.next →
      (pushes.foldl retrieve_data_heap st).store t = st.store t := by
  intro pushes
  induction pushes with
  | nil => intro st t _ _; rfl
  | cons x xs ih =>
      intro st t ht hwf
      rw [List.foldl_cons]
      have key : (retrieve_data_heap st x).store t = st.store t ∧
          t < (retrieve_data_heap st x).dataRef ∧
          (retrieve_data_heap st x).dataRef < (retrieve_data_heap st x).next := by
        unfold retrieve_data_heap
        by_cases hlen : (st.store st.dataRef ++ [x]).length > 10
        · rw [if_pos hlen]
          refine ⟨?_, show t < st.next by omega,
            show st.next < st.next + 1 from Nat.lt_succ_self st.next⟩
          show (if t = st.next then []
            else if t = st.dataRef then st.store st.dataRef ++ [x] else st.store t) =
              st.store t
          rw [if_neg (show ¬ t = st.next by omega),
            if_neg (show ¬ t = st.dataRef by omega)]
        · rw [if_neg hlen]
          refine ⟨?_, ht, hwf⟩
          show (if t = st.dataRef
            then st.store st.dataRef ++ [x] else st.store t) = st.store t
          rw [if_neg (show ¬ t = st.dataRef by omega)]
      rw [ih (retrieve_data_heap st x) t key.2.1 key.2.2, key.1]

/-- C10: after a successful drain, the drained batch is never modified again:
the drain rebinds the global `data` to a fresh empty list object, so any
sequence of subsequent pushes by the sampler appends only to buffers distinct
from the batch object, whose contents stay exactly as they were at drain
time. -/
theorem drained_batch_immutable (st : BufHeap) (hwf : st.dataRef < st.next)
    (pushes : List (List ℚ)) :
    (drainTake st).2.store ((drainTake st).2.dataRef) = [] ∧
      (pushes.foldl retrieve_data_heap (drainTake st).2).store (drainTake st).1 =
        st.store st.dataRef := by
  constructor
  · show (if st.next = st.next then [] else st.store st.next) = []
    rw [if_pos rfl]
  · have h1 : (drainTake st).2.store st.dataRef = st.store st.dataRef := by
      show (if st.dataRef = st.next then [] else st.store st.dataRef) =
        st.store st.dataRef
      rw [if_neg (show ¬ st.dataRef = st.next by omega)]
    have h2 : (pushes.foldl retrieve_data_heap (drainTake st).2).store st.dataRef =
        (drainTake st).2.store st.dataRef :=
      retrieve_data_heap_frame pushes (drainTake st).2 st.dataRef hwf
        (Nat.lt_succ_self st.next)
    rw [show (drainTake st).1 = st.dataRef from rfl, h2, h1]

theorem drained_batch_immutable_witness :
    (drainTake ⟨fun _ => [[(1 : ℚ)], [2], [3]], 0, 1⟩).2.store
        ((drainTake ⟨fun _ => [[(1 : ℚ)], [2], [3]], 0, 1⟩).2.dataRef) = [] ∧
      ([[(7 : ℚ)]].foldl retrieve_data_heap
          (drainTake ⟨fun _ => [[(1 : ℚ)], [2], [3]], 0, 1⟩).2).store
          (drainTake ⟨fun _ => [[(1 : ℚ)], [2], [3]], 0, 1⟩).1 =
        (⟨fun _ => [[(1 : ℚ)], [2], [3]], 0, 1⟩ : BufHeap).store
          (⟨fun _ => [[(1 : ℚ)], [2], [3]], 0, 1⟩ : BufHeap).dataRef :=
  drained_batch_immutable ⟨fun _ => [[(1 : ℚ)], [2], [3]], 0, 1⟩
    (Nat.lt_succ_self 0) [[(7 : ℚ)]]

/-- Transport-level failure raised by the websocket layer; the bare `except`
clauses in the source catch every such error. -/
inductive TransportError
  | failure

/-- Connection state: the module-level `ws` handle, `none` before any
successful connect. Socket objects are modelled by numeric handles. -/
structure ConnState where
  ws : Option Nat

/-- Model of `connect_websocket`: attempts `uwebsockets.client.connect(...)`
(outcome supplied by the oracle `connectResult`); on success the global `ws`
is rebound to the new socket, on failure the bare `except:` swallows the error
and leaves the state unchanged. -/
def connect_websocket (st : ConnState) (connectResult : Except TransportError Nat) :
    ConnState :=
  match connectResult with
  | .ok s => ⟨some s⟩
  | .error _ => st

/-- Outcome of one `publish_data` iteration: the buffer afterwards, the
connection state afterwards, whether `connect_websocket` was invoked, and the
batch handed to the single `ws.send` attempt. -/
structure PublishOutcome where
  buffer : List (List ℚ)
  conn : ConnState
  reconnected : Bool
  attempted : List (List ℚ)

/-- Model of the take-and-send part of one `publish_data` iteration, after the
wait has succeeded: `temp = data; data = []`, then `ws.send(str([token, temp]))`
inside `try`, where the bare `except:` calls `connect_websocket()`. The
outcomes of the two network operations are the oracles `sendResult` and
`connectResult`; the batch `temp` appears once in the single send attempt and
nowhere else. An `.error` result would model an exception escaping the
iteration. -/
def publish_iteration (buf : List (List ℚ)) (conn : ConnState)
    (sendResult : Except TransportError Unit)
    (connectResult : Except TransportError Nat) :
    Except TransportError PublishOutcome :=
  let temp := buf
  match sendResult with
  | .ok _ => .ok ⟨[], conn, false, temp⟩
  | .error _ => .ok ⟨[], connect_websocket conn connectResult, true, temp⟩

/-- C6: one publish iteration never lets a send or reconnect error escape (it
always completes normally); the in-flight batch goes into exactly one send
attempt and is dropped, never put back in the buffer (the buffer afterwards is
empty regardless of the send outcome, so the batch cannot be retried); on any
send failure `connect_websocket` is invoked, and it is not invoked when the
send succeeds. -/
theorem publish_iteration_resilient (buf : List (List ℚ)) (conn : ConnState)
    (sr : Except TransportError Unit) (cr : Except TransportError Nat) :
    ∃ out, publish_iteration buf conn sr cr = .ok out ∧
      out.buffer = [] ∧ out.attempted = buf ∧
      (∀ e, sr = .error e →
        out.reconnected = true ∧ out.conn = connect_websocket conn cr) ∧
      (∀ u, sr = .ok u → out.reconnected = false ∧ out.conn = conn) := by
  cases sr with
  | ok u =>
      exact ⟨⟨[], conn, false, buf⟩, rfl, rfl, rfl,
        fun e he => Except.noConfusion he, fun _ _ => ⟨rfl, rfl⟩⟩
  | error e =>
      exact ⟨⟨[], connect_websocket conn cr, true, buf⟩, rfl, rfl, rfl,
        fun e' _ => ⟨rfl, rfl⟩, fun u hu => Except.noConfusion hu⟩

theorem publish_iteration_resilient_witness :
    ∃ out, publish_iteration [[(5 : ℚ)]] ⟨none⟩
        (.error .failure) (.error .failure) = .ok out ∧
      out.buffer = [] ∧ out.attempted = [[(5 : ℚ)]] ∧
      (∀ e, (.error .failure : Except TransportError Unit) = .error e →
        out.reconnected = true ∧
          out.conn = connect_websocket ⟨none⟩ (.error .failure)) ∧
      (∀ u, (.error .failure : Except TransportError Unit) = .ok u →
        out.reconnected = false ∧ out.conn = ⟨none⟩) :=
  publish_iteration_resilient [[(5 : ℚ)]] ⟨none⟩ (.error .failure) (.error .failure)

end Firmware
